import Mathlib

/-!
Shallow embedding of the `co-weibo-oauth` client library (src/lib/oauth.js).

The HTTP transport (`urllib`) is modelled as an oracle mapping each outgoing
request (url, options) to either a transport exception or a decoded JSON
body.  Generator functions that perform I/O become pure functions threading
the in-memory token store (the default store adapter, `this.store`) and
returning, besides the result, the list of requests issued.  Clock reads
(`new Date().getTime()`) become explicit integer parameters.
-/

/-- The data carried by a stored access token: the JSON body of a token
response plus the `create_at` stamp added by `processToken`. -/
structure TokenData where
  access_token : String
  expires_in : Int
  refresh_token : String
  uid : String
  scope : String
  create_at : Int
deriving DecidableEq, Repr

/-- The `AccessToken` wrapper class: `this.data = data`. -/
structure AccessToken where
  data : TokenData
deriving DecidableEq, Repr

/-- JS truthiness of a string-valued field: `!!s` is false exactly for the
empty string (and for an absent field, modelled as `none` by callers). -/
def jsTruthyStr (s : String) : Bool := s ≠ ""

/-- `AccessToken.prototype.isValid`:
`!!this.data.access_token && now < this.data.create_at + this.data.expires_in * 1000`. -/
def AccessToken.isValid (t : AccessToken) (now : Int) : Bool :=
  jsTruthyStr t.data.access_token && decide (now < t.data.create_at + t.data.expires_in * 1000)

/-! ## Token store (default in-memory adapter) and JS object operations

JS objects are modelled as association lists in insertion order; property
read is first match, property write replaces the first binding in place or
appends a new one. -/

/-- Property read on a JS object: first binding wins (keys are unique in an
actual JS object). -/
def getKey {α : Type} : List (String × α) → String → Option α
  | [], _ => none
  | (k', v') :: rest, k => if k' = k then some v' else getKey rest k

/-- Property write on a JS object: replace the first binding for the key, or
append a fresh binding. -/
def setKey {α : Type} : List (String × α) → String → α → List (String × α)
  | [], k, v => [(k, v)]
  | (k', v') :: rest, k, v =>
    if k' = k then (k, v) :: rest else (k', v') :: setKey rest k v

/-- `lodash.extend(target, src)`: assign every enumerable key of `src` into
`target`, in order. -/
def extendAssoc {α : Type} (target src : List (String × α)) : List (String × α) :=
  src.foldl (fun acc kv => setKey acc kv.1 kv.2) target

/-- The default token store `this.store`, a process-local map from uid to the
saved token data (`getToken` reads it, `saveToken` overwrites one key). -/
abbrev Store := List (String × TokenData)

/-! ## The HTTP transport oracle -/

/-- A decoded JSON response body.  Fields the library may read are explicit
(`error*` for the request funnel, the token fields for `processToken`);
`payload` stands for the remaining, opaque part of a user-profile response.
An absent `error` field is `none`; a present one is `some s`. -/
structure Body where
  error : Option String
  error_code : Int
  error_description : String
  access_token : String
  expires_in : Int
  refresh_token : String
  uid : String
  scope : String
  payload : String
deriving DecidableEq, Repr

/-- The options object each call site hands to `this.request`: an optional
`method` key (absent means the transport default), the `data` form fields in
insertion order, and `dataType`. -/
structure Args where
  method : Option String
  data : List (String × String)
  dataType : String
deriving DecidableEq, Repr

/-- Outcome of one `urllib.requestThunk` round trip: a thrown transport
exception (with its `name`), or an HTTP response with a status and a decoded
body. -/
inductive NetResult where
  | exn (name message : String)
  | ok (status : Int) (body : Body)
deriving DecidableEq, Repr

/-- The HTTP transport, as an oracle from (url, options) to an outcome. -/
abbrev Net := String → Args → NetResult

/-- Error taxonomy of the library: `WeiboAPIError` (provider signalled
failure in-band), a transport error re-tagged with name
`"WeiboAPI" ++ name`, and `NoOAuthTokenError`. -/
inductive WError where
  | weiboAPIError (code : Int) (message : String)
  | transportError (name : String) (message : String)
  | noOAuthTokenError (message : String)
deriving DecidableEq, Repr

/-- JS truthiness of a possibly absent string field. -/
def jsTruthyOptStr : Option String → Bool
  | none => false
  | some s => jsTruthyStr s

/-- A log of the requests issued during a call, in order. -/
abbrev Trace := List (String × Args)

/-- The OAuth client's construction-time credentials. -/
structure OAuth where
  clientId : String
  clientSecret : String
  redirectUri : String
deriving DecidableEq, Repr

/-- `OAuth.prototype.request`, lines 99-116 (the option merge of lines 85-97
is modelled separately as `OAuth.mergeOptions`; the oracle is keyed by the
call site's url and args): issue the call, re-tag a transport exception with
the `WeiboAPI` name, raise `WeiboAPIError` when the decoded body's `error`
field is truthy, otherwise return the body. -/
def OAuth.request (net : Net) (url : String) (args : Args) : Except WError Body :=
  match net url args with
  | .exn name msg => .error (.transportError ("WeiboAPI" ++ name) msg)
  | .ok _status data =>
    if jsTruthyOptStr data.error then
      .error (.weiboAPIError data.error_code data.error_description)
    else
      .ok data

/-! ## Token minting and refreshing -/

def accessTokenURL : String := "https://api.weibo.com/oauth2/access_token"

def usersShowURL : String := "https://api.weibo.com/2/users/show.json"

/-- The token data built by `processToken`: the response body's token fields
with `create_at` stamped to the clock reading. -/
def TokenData.ofBody (data : Body) (now : Int) : TokenData :=
  { access_token := data.access_token
    expires_in := data.expires_in
    refresh_token := data.refresh_token
    uid := data.uid
    scope := data.scope
    create_at := now }

/-- `OAuth.prototype.processToken`: stamp `data.create_at` with the current
time, save the data through the store adapter under `data.uid`, and return
the `AccessToken` wrapping that same data. -/
def OAuth.processToken (now : Int) (store : Store) (data : Body) :
    AccessToken × Store :=
  let t := TokenData.ofBody data now
  (⟨t⟩, setKey store data.uid t)

/-- The request options built inside `getAccessToken`: method POST, form
fields client_id, client_secret, code, grant_type=authorization_code,
redirect_uri, dataType json. -/
def OAuth.getAccessTokenArgs (c : OAuth) (code : String) : Args :=
  { method := some "POST"
    data := [("client_id", c.clientId), ("client_secret", c.clientSecret),
             ("code", code), ("grant_type", "authorization_code"),
             ("redirect_uri", c.redirectUri)]
    dataType := "json" }

/-- `OAuth.prototype.getAccessToken`: POST the code exchange to the token
endpoint, then process (stamp, save, wrap) the response body. -/
def OAuth.getAccessToken (c : OAuth) (net : Net) (now : Int) (store : Store)
    (code : String) : Except WError AccessToken × Store × Trace :=
  let args := c.getAccessTokenArgs code
  match OAuth.request net accessTokenURL args with
  | .error e => (.error e, store, [(accessTokenURL, args)])
  | .ok data =>
    let r := OAuth.processToken now store data
    (.ok r.1, r.2, [(accessTokenURL, args)])

/-- The request options built inside `refreshAccessToken`: no `method` key
(the transport default applies), form fields client_id, client_secret,
grant_type=refresh_token, redirect_uri, refresh_token, dataType json. -/
def OAuth.refreshAccessTokenArgs (c : OAuth) (refreshToken : String) : Args :=
  { method := none
    data := [("client_id", c.clientId), ("client_secret", c.clientSecret),
             ("grant_type", "refresh_token"), ("redirect_uri", c.redirectUri),
             ("refresh_token", refreshToken)]
    dataType := "json" }

/-- `OAuth.prototype.refreshAccessToken`: send the refresh exchange to the
token endpoint (note: its args carry no `method` key), then process the
response body exactly as `getAccessToken` does. -/
def OAuth.refreshAccessToken (c : OAuth) (net : Net) (now : Int) (store : Store)
    (refreshToken : String) : Except WError AccessToken × Store × Trace :=
  let args := c.refreshAccessTokenArgs refreshToken
  match OAuth.request net accessTokenURL args with
  | .error e => (.error e, store, [(accessTokenURL, args)])
  | .ok data =>
    let r := OAuth.processToken now store data
    (.ok r.1, r.2, [(accessTokenURL, args)])

/-! ## getUser -/

/-- The structured options object accepted by `getUser`: a `uid`, and the
documented optional `access_token` and `lang` keys. -/
structure GetUserOptions where
  uid : String
  access_token : Option String
  lang : Option String
deriving DecidableEq, Repr

/-- JS `v || dflt` for a possibly absent string `v`. -/
def jsOrStr (v : Option String) (dflt : String) : String :=
  match v with
  | none => dflt
  | some s => if s = "" then dflt else s

/-- The request options built inside `_getUser`: form fields access_token,
uid, lang (defaulting to en), dataType json, no method key. -/
def OAuth.getUserArgs (o : GetUserOptions) (accessToken : String) : Args :=
  { method := none
    data := [("access_token", accessToken), ("uid", o.uid),
             ("lang", jsOrStr o.lang "en")]
    dataType := "json" }

/-- `OAuth.prototype._getUser`: fetch the user-profile resource with the
resolved access token; the decoded body is the returned payload. -/
def OAuth.getUserResource (c : OAuth) (net : Net) (o : GetUserOptions)
    (accessToken : String) : Except WError Body × Trace :=
  let args := OAuth.getUserArgs o accessToken
  (OAuth.request net usersShowURL args, [(usersShowURL, args)])

/-- `OAuth.prototype.getUser` after options normalization (`tValid` is the
clock reading of the `isValid` check, `tRefresh` the one inside a triggered
refresh): load the cached token by uid, fail with `NoOAuthTokenError` when
absent, use its access token when valid, otherwise refresh with the cached
`refresh_token` and use the refreshed access token, then fetch the
resource. -/
def OAuth.getUserWithOptions (c : OAuth) (net : Net) (tValid tRefresh : Int)
    (store : Store) (o : GetUserOptions) : Except WError Body × Store × Trace :=
  match getKey store o.uid with
  | none =>
    (.error (.noOAuthTokenError ("No token for " ++ o.uid ++ ", please authorize first.")),
     store, [])
  | some data =>
    let token : AccessToken := ⟨data⟩
    if token.isValid tValid then
      let r := c.getUserResource net o token.data.access_token
      (r.1, store, r.2)
    else
      match c.refreshAccessToken net tRefresh store data.refresh_token with
      | (.error e, store', tr) => (.error e, store', tr)
      | (.ok newToken, store', tr) =>
        let r := c.getUserResource net o newToken.data.access_token
        (r.1, store', tr ++ r.2)

/-- The duck-typed argument of `getUser`: a bare uid string or a structured
options object. -/
inductive GetUserArg where
  | uidArg (uid : String)
  | optionsArg (o : GetUserOptions)
deriving DecidableEq, Repr

/-- The normalization at the top of `getUser`: a bare uid becomes an options
object with only the uid set. -/
def normalizeOptions : GetUserArg → GetUserOptions
  | .uidArg u => ⟨u, none, none⟩
  | .optionsArg o => o

/-- `OAuth.prototype.getUser`, duck-typed entry point. -/
def OAuth.getUser (c : OAuth) (net : Net) (tValid tRefresh : Int)
    (store : Store) (arg : GetUserArg) : Except WError Body × Store × Trace :=
  c.getUserWithOptions net tValid tRefresh store (normalizeOptions arg)

/-! ## Authorize URL construction

`querystring.stringify` percent-encodes each key and value with Node's
`querystring.escape` (the `encodeURIComponent` character set: ASCII letters,
digits and `- . _ ~ ! ' ( ) *` pass through, every other UTF-8 byte becomes
an uppercase `%XX` escape) and joins `key=value` pairs with `&` in insertion
order. -/

/-- Uppercase hexadecimal digit of a value below 16. -/
def hexDigitChar (n : Nat) : Char :=
  if n < 10 then Char.ofNat (48 + n) else Char.ofNat (55 + n)

/-- The UTF-8 bytes of one character, as naturals below 256. -/
def utf8BytesOfChar (c : Char) : List Nat :=
  let v := c.toNat
  if v ≤ 0x7f then [v]
  else if v ≤ 0x7ff then [0xc0 + v / 64, 0x80 + v % 64]
  else if v ≤ 0xffff then [0xe0 + v / 4096, 0x80 + v / 64 % 64, 0x80 + v % 64]
  else [0xf0 + v / 262144, 0x80 + v / 4096 % 64, 0x80 + v / 64 % 64, 0x80 + v % 64]

/-- Bytes `querystring.escape` leaves unescaped: ASCII alphanumerics and
`- . _ ~ ! ' ( ) *`. -/
def qsUnescapedByte (b : Nat) : Bool :=
  (48 ≤ b && b ≤ 57) || (65 ≤ b && b ≤ 90) || (97 ≤ b && b ≤ 122) ||
  b == 45 || b == 46 || b == 95 || b == 126 ||
  b == 33 || b == 39 || b == 40 || b == 41 || b == 42

/-- One byte of `querystring.escape` output. -/
def escapeByte (b : Nat) : String :=
  if qsUnescapedByte b then String.singleton (Char.ofNat b)
  else "%" ++ String.singleton (hexDigitChar (b / 16)) ++
    String.singleton (hexDigitChar (b % 16))

/-- Node's `querystring.escape` over the UTF-8 bytes of a string. -/
def qsEscape (s : String) : String :=
  String.join ((s.data.flatMap utf8BytesOfChar).map escapeByte)

/-- Node's `querystring.stringify` restricted to string-valued objects. -/
def qsStringify (pairs : List (String × String)) : String :=
  String.intercalate "&" (pairs.map fun p => qsEscape p.1 ++ "=" ++ qsEscape p.2)

def authorizeURL : String := "https://api.weibo.com/oauth2/authorize"

/-- The query parameters `getAuthorizeURL` serializes, in insertion order. -/
def OAuth.authorizeInfo (c : OAuth) (state scope : Option String) :
    List (String × String) :=
  [("client_id", c.clientId), ("redirect_uri", c.redirectUri),
   ("response_type", "code"), ("scope", jsOrStr scope "users_show"),
   ("state", jsOrStr state "")]

/-- `OAuth.prototype.getAuthorizeURL`: pure URL construction; the `redirect`
argument is accepted but what is embedded is the configured `redirect_uri`. -/
def OAuth.getAuthorizeURL (c : OAuth) (redirect state scope : Option String) :
    String :=
  authorizeURL ++ "?" ++ qsStringify (c.authorizeInfo state scope) ++ "#weibo_redirect"

/-! ## Option merging in the request funnel (lines 84-97)

`request` builds `options` as an `extend` copy of `this.defaults`, then walks
the per-call `opts`: every key other than `headers` overwrites wholesale;
for `headers` it key-wise extends `options.headers`.  Because the initial
`extend` is shallow, when the defaults carry a headers object that object is
shared with `options`, and the key-wise extend mutates the stored defaults'
headers in place.  `mergeOptions` returns both the effective options handed
to the transport and the post-call state of the stored defaults. -/

/-- A JS value stored under a non-`headers` option key. -/
inductive JVal where
  | str : String → JVal
  | num : Int → JVal
  | obj : List (String × String) → JVal
deriving DecidableEq, Repr

/-- An options object for the transport: the non-`headers` bindings in
insertion order, and the `headers` sub-object (`none` for absent or falsy). -/
structure UrlOpts where
  pairs : List (String × JVal)
  headers : Option (List (String × String))
deriving DecidableEq, Repr

/-- The option merge of `OAuth.prototype.request`.  First component: the
effective options issued to the transport.  Second component: the stored
defaults after the call (mutated through the shared headers object when both
the defaults and the per-call opts carry headers). -/
def OAuth.mergeOptions (defaults opts : UrlOpts) : UrlOpts × UrlOpts :=
  let top := extendAssoc defaults.pairs opts.pairs
  match opts.headers with
  | none => (⟨top, defaults.headers⟩, defaults)
  | some h =>
    match defaults.headers with
    | none => (⟨top, some (extendAssoc [] h)⟩, defaults)
    | some dh =>
      let nh := extendAssoc dh h
      (⟨top, some nh⟩, ⟨defaults.pairs, some nh⟩)

/-! ## Theorems -/

/-- C1: `isValid` is true iff `access_token` is non-empty and
`now < create_at + expires_in * 1000`; in particular it is false for an empty
`access_token` regardless of the expiry arithmetic, and for a token minted at
`T = create_at` with `expires_in = E` and a non-empty access token it is true
at `T + (E*1000 - 1)` and false at `T + E*1000 + 1`. -/
theorem isValid_iff_nonempty_and_before_expiry (d : TokenData) (now : Int) :
    ((AccessToken.mk d |>.isValid now) = true ↔
      d.access_token ≠ "" ∧ now < d.create_at + d.expires_in * 1000) ∧
    (d.access_token = "" → (AccessToken.mk d |>.isValid now) = false) ∧
    (d.access_token ≠ "" →
      (AccessToken.mk d |>.isValid (d.create_at + (d.expires_in * 1000 - 1))) = true ∧
      (AccessToken.mk d |>.isValid (d.create_at + d.expires_in * 1000 + 1)) = false) := by
  refine ⟨by simp [AccessToken.isValid, jsTruthyStr], ?_, ?_⟩
  · intro h
    simp [AccessToken.isValid, jsTruthyStr, h]
  · intro h
    constructor
    · simp only [AccessToken.isValid, jsTruthyStr, h, Bool.and_eq_true, decide_eq_true_eq]
      exact ⟨by simpa using h, by omega⟩
    · simp only [AccessToken.isValid, jsTruthyStr, Bool.and_eq_false_iff, decide_eq_false_iff_not]
      right
      omega

/-- Witness for C1 at a concrete token minted at time 0 with
`expires_in = 7`. -/
theorem isValid_iff_nonempty_and_before_expiry_witness :
    (AccessToken.mk ⟨"a", 7, "r", "u1", "s", 0⟩ |>.isValid ((0 : Int) + ((7 : Int) * 1000 - 1))) = true ∧
    (AccessToken.mk ⟨"a", 7, "r", "u1", "s", 0⟩ |>.isValid ((0 : Int) + (7 : Int) * 1000 + 1)) = false :=
  (isValid_iff_nonempty_and_before_expiry ⟨"a", 7, "r", "u1", "s", 0⟩ 0).2.2 (by decide)

/-- C7: `getAuthorizeURL` is pure and returns exactly the fixed authorize
host and `?`, then the query-string encoding of client_id, the configured
redirect_uri, response_type=code, scope (defaulting to users_show), state
(defaulting to the empty string), then the fragment `#weibo_redirect`; the
output is independent of the `redirect` argument.  The last conjunct
evaluates one concrete client end to end, percent-escapes included. -/
theorem getAuthorizeURL_spec (c : OAuth) (redirect state scope : Option String) :
    (c.getAuthorizeURL redirect state scope =
      "https://api.weibo.com/oauth2/authorize?" ++
        qsStringify
          [("client_id", c.clientId), ("redirect_uri", c.redirectUri),
           ("response_type", "code"),
           ("scope", if scope.getD "" = "" then "users_show" else scope.getD ""),
           ("state", state.getD "")] ++
      "#weibo_redirect") ∧
    (∀ redirect1 redirect2 : Option String,
      c.getAuthorizeURL redirect1 state scope = c.getAuthorizeURL redirect2 state scope) ∧
    (OAuth.mk "cid" "sec" "http://c.example/cb").getAuthorizeURL (some "r") (some "s") (some "scope1") =
      "https://api.weibo.com/oauth2/authorize?client_id=cid&redirect_uri=http%3A%2F%2Fc.example%2Fcb&response_type=code&scope=scope1&state=s#weibo_redirect" := by
  refine ⟨?_, fun _ _ => rfl, by decide⟩
  have hs : jsOrStr scope "users_show" =
      (if scope.getD "" = "" then "users_show" else scope.getD "") := by
    cases scope with
    | none => rfl
    | some s => by_cases h : s = "" <;> simp [jsOrStr, h]
  have ht : jsOrStr state "" = state.getD "" := by
    cases state with
    | none => rfl
    | some s => by_cases h : s = "" <;> simp [jsOrStr, h]
  simp only [OAuth.getAuthorizeURL, OAuth.authorizeInfo, authorizeURL, hs, ht]
  rfl

/-- Writing a key then reading it yields the written value. -/
theorem getKey_setKey_self {α : Type} (l : List (String × α)) (k : String) (v : α) :
    getKey (setKey l k v) k = some v := by
  induction l with
  | nil => simp [getKey, setKey]
  | cons hd tl ih =>
    by_cases h : hd.1 = k
    · simp [getKey, setKey, h]
    · cases hd
      simp_all [getKey, setKey, h]

/-- Writing one key leaves every other key's reading unchanged. -/
theorem getKey_setKey_ne {α : Type} (l : List (String × α)) {k k' : String} (v : α)
    (h : k' ≠ k) : getKey (setKey l k' v) k = getKey l k := by
  induction l with
  | nil => simp [getKey, setKey, h]
  | cons hd tl ih =>
    cases hd with
    | mk k0 v0 =>
      by_cases h0 : k0 = k'
      · simp [getKey, setKey, h0, h]
      · simp only [setKey, h0, if_neg h0, getKey]
        by_cases h1 : k0 = k <;> simp [h1, ih]

/-- A key outside a JS object's key set reads as absent. -/
theorem getKey_eq_none_of_not_mem {α : Type} (l : List (String × α)) (k : String)
    (h : k ∉ l.map Prod.fst) : getKey l k = none := by
  induction l with
  | nil => rfl
  | cons hd tl ih =>
    simp only [List.map, List.mem_cons] at h
    push_neg at h
    cases hd
    simp only [getKey]
    rw [if_neg (by simpa using Ne.symm h.1)]
    exact ih h.2

/-- Reading after `extend`: a key bound in the source wins, any other key
falls back to the target (source keys assumed unique, as in a JS object). -/
theorem getKey_extendAssoc {α : Type} (src : List (String × α)) (target : List (String × α))
    (k : String) (h : (src.map Prod.fst).Nodup) :
    getKey (extendAssoc target src) k = (getKey src k).or (getKey target k) := by
  induction src generalizing target with
  | nil => simp [extendAssoc, getKey, Option.or]
  | cons hd tl ih =>
    cases hd with
    | mk k1 v1 =>
      simp only [List.map, List.nodup_cons] at h
      have step : extendAssoc target ((k1, v1) :: tl) = extendAssoc (setKey target k1 v1) tl := rfl
      rw [step, ih (setKey target k1 v1) h.2]
      by_cases hk : k1 = k
      · subst hk
        rw [getKey_eq_none_of_not_mem tl k1 h.1, getKey_setKey_self]
        simp [getKey, Option.or]
      · rw [getKey_setKey_ne target v1 hk]
        simp [getKey, hk, Option.or]

/-- C8: the options handed to the transport are the defaults with every
non-headers per-call key overwriting the same-named default wholesale, and
the headers sub-object merged key-wise: a per-call header key overrides the
same-named default header key, other default header keys are retained (and
with no per-call headers the default headers pass through). -/
theorem mergeOptions_effective (defaults opts : UrlOpts)
    (hnd : (opts.pairs.map Prod.fst).Nodup)
    (hnh : ∀ h, opts.headers = some h → (h.map Prod.fst).Nodup) :
    (∀ k, getKey ((OAuth.mergeOptions defaults opts).1).pairs k =
        (getKey opts.pairs k).or (getKey defaults.pairs k)) ∧
    (opts.headers = none →
      ((OAuth.mergeOptions defaults opts).1).headers = defaults.headers) ∧
    (∀ h, opts.headers = some h →
      ((OAuth.mergeOptions defaults opts).1).headers =
        some (extendAssoc (defaults.headers.getD []) h) ∧
      ∀ k, getKey (extendAssoc (defaults.headers.getD []) h) k =
        (getKey h k).or (getKey (defaults.headers.getD []) k)) := by
  refine ⟨?_, ?_, ?_⟩
  · intro k
    cases hh : opts.headers with
    | none =>
      simp only [OAuth.mergeOptions, hh]
      exact getKey_extendAssoc opts.pairs defaults.pairs k hnd
    | some h =>
      cases dh : defaults.headers <;>
        simpa only [OAuth.mergeOptions, hh, dh] using
          getKey_extendAssoc opts.pairs defaults.pairs k hnd
  · intro hh
    simp [OAuth.mergeOptions, hh]
  · intro h hh
    refine ⟨?_, fun k => getKey_extendAssoc h (defaults.headers.getD []) k (hnh h hh)⟩
    cases dh : defaults.headers <;> simp [OAuth.mergeOptions, hh, dh]

/-- Witness for C8 at one concrete pair of option objects. -/
theorem mergeOptions_effective_witness :
    getKey ((OAuth.mergeOptions ⟨[("timeout", JVal.num 100), ("a", JVal.str "d")], some [("h1", "x"), ("h3", "w")]⟩
        ⟨[("a", JVal.str "o"), ("b", JVal.num 2)], some [("h1", "y"), ("h2", "z")]⟩).1).pairs "timeout" =
      some (JVal.num 100) := by
  have h := mergeOptions_effective
      ⟨[("timeout", JVal.num 100), ("a", JVal.str "d")], some [("h1", "x"), ("h3", "w")]⟩
      ⟨[("a", JVal.str "o"), ("b", JVal.num 2)], some [("h1", "y"), ("h2", "z")]⟩
      (by decide) (by intro hl heq; cases heq; decide)
  exact (h.1 "timeout").trans (by decide)

/-- C9 counterexample: when the stored defaults carry a headers object and
the per-call options do too, the merge mutates the stored defaults (through
the shallow-copied, shared headers object): after the call the defaults are
no longer what `setOpts` stored. -/
theorem mergeOptions_mutates_stored_defaults :
    (OAuth.mergeOptions ⟨[], some [("a", "1")]⟩ ⟨[], some [("b", "2")]⟩).2 ≠
      ⟨[], some [("a", "1")]⟩ ∧
    (OAuth.mergeOptions ⟨[], some [("a", "1")]⟩ ⟨[], some [("b", "2")]⟩).2 =
      ⟨[], some [("a", "1"), ("b", "2")]⟩ := by
  exact ⟨by decide, by decide⟩

/-- C9 amended: the merge never touches the stored defaults' non-headers
bindings, and it leaves the stored defaults entirely unchanged whenever the
defaults carry no headers object or the per-call options carry none; only
when both carry headers do the per-call header keys leak into the stored
defaults' shared headers object. -/
theorem mergeOptions_defaults_frame (defaults opts : UrlOpts) :
    (OAuth.mergeOptions defaults opts).2.pairs = defaults.pairs ∧
    ((defaults.headers = none ∨ opts.headers = none) →
      (OAuth.mergeOptions defaults opts).2 = defaults) := by
  constructor
  · cases hh : opts.headers <;> cases dh : defaults.headers <;>
      simp [OAuth.mergeOptions, hh, dh]
  · rintro (dh | hh)
    · cases hh : opts.headers <;> simp [OAuth.mergeOptions, hh, dh]
    · simp [OAuth.mergeOptions, hh]

/-- Witness for the amended C9 at concrete option objects (defaults without
a headers object, per-call options with one). -/
theorem mergeOptions_defaults_frame_witness :
    (OAuth.mergeOptions ⟨[("timeout", JVal.num 100)], none⟩
        ⟨[("a", JVal.str "o")], some [("h1", "y")]⟩).2 =
      ⟨[("timeout", JVal.num 100)], none⟩ :=
  (mergeOptions_defaults_frame ⟨[("timeout", JVal.num 100)], none⟩
      ⟨[("a", JVal.str "o")], some [("h1", "y")]⟩).2 (Or.inl rfl)

/-- C6 counterexample: a decoded body carrying an `error` field that holds
the empty string is returned unchanged instead of raising `WeiboAPIError`,
because the funnel tests JS truthiness (`if (data.error)`), not field
presence. -/
theorem request_empty_error_field_counterexample :
    OAuth.request
        (fun _ _ => NetResult.ok 200 ⟨some "", 21327, "expired", "", 0, "", "", "", ""⟩)
        accessTokenURL ⟨none, [], "json"⟩ =
      Except.ok ⟨some "", 21327, "expired", "", 0, "", "", "", ""⟩ ∧
    (⟨some "", 21327, "expired", "", 0, "", "", "", ""⟩ : Body).error ≠ none := by
  exact ⟨rfl, by decide⟩

/-- C6 amended: for every decoded body reaching the funnel, if the `error`
field is truthy (present and non-empty) the call raises `WeiboAPIError` with
code `error_code` and message `error_description`, regardless of the HTTP
status; if the `error` field is absent or empty the body is returned
unchanged. -/
theorem request_error_semantics (net : Net) (url : String) (args : Args)
    (status : Int) (b : Body) (hnet : net url args = .ok status b) :
    (jsTruthyOptStr b.error = true →
      OAuth.request net url args =
        Except.error (.weiboAPIError b.error_code b.error_description)) ∧
    (jsTruthyOptStr b.error = false → OAuth.request net url args = Except.ok b) := by
  constructor <;> intro h <;> simp [OAuth.request, hnet, h]

/-- Witness for the amended C6: the spec's own example body raises
`WeiboAPIError` with code 21327 and message expired. -/
theorem request_error_semantics_witness :
    OAuth.request
        (fun _ _ => NetResult.ok 200 ⟨some "bad", 21327, "expired", "", 0, "", "", "", ""⟩)
        accessTokenURL ⟨none, [], "json"⟩ =
      Except.error (WError.weiboAPIError 21327 "expired") :=
  (request_error_semantics _ accessTokenURL ⟨none, [], "json"⟩ 200
      ⟨some "bad", 21327, "expired", "", 0, "", "", "", ""⟩ rfl).1 (by decide)

/-- C3: when the store adapter has no token for the requested uid (whether
`getUser` got a bare uid or a structured options object), the call fails
with `NoOAuthTokenError`, issues no network request, and leaves the token
store unchanged. -/
theorem getUser_no_token (c : OAuth) (net : Net) (tValid tRefresh : Int)
    (store : Store) (arg : GetUserArg)
    (habsent : getKey store (normalizeOptions arg).uid = none) :
    c.getUser net tValid tRefresh store arg =
      (Except.error (.noOAuthTokenError
          ("No token for " ++ (normalizeOptions arg).uid ++ ", please authorize first.")),
       store, []) := by
  simp [OAuth.getUser, OAuth.getUserWithOptions, habsent]

/-- Witness for C3 on the empty store with a bare uid. -/
theorem getUser_no_token_witness :
    (OAuth.mk "cid" "sec" "ru").getUser (fun _ _ => NetResult.exn "Error" "down") 0 0 []
        (GetUserArg.uidArg "u1") =
      (Except.error (WError.noOAuthTokenError "No token for u1, please authorize first."),
       ([] : Store), ([] : Trace)) := by
  have h := getUser_no_token (OAuth.mk "cid" "sec" "ru")
      (fun _ _ => NetResult.exn "Error" "down") 0 0 [] (GetUserArg.uidArg "u1") rfl
  exact h.trans rfl

/-- C4: on every successful mint response and every successful refresh
response, `create_at` is stamped (once, by construction of the processed
token data) with the clock reading at processing time, the stamped data is
saved through the store adapter under the response body's uid before the
call returns, and the returned `AccessToken` wraps exactly the data that was
saved. -/
theorem token_mint_refresh_persistence (c : OAuth) (net : Net) (now : Int)
    (store : Store) (code refreshToken : String) (s1 s2 : Int) (b1 b2 : Body)
    (hnet1 : net accessTokenURL (c.getAccessTokenArgs code) = .ok s1 b1)
    (hb1 : jsTruthyOptStr b1.error = false)
    (hnet2 : net accessTokenURL (c.refreshAccessTokenArgs refreshToken) = .ok s2 b2)
    (hb2 : jsTruthyOptStr b2.error = false) :
    (c.getAccessToken net now store code =
        (Except.ok ⟨TokenData.ofBody b1 now⟩,
         setKey store b1.uid (TokenData.ofBody b1 now),
         [(accessTokenURL, c.getAccessTokenArgs code)]) ∧
      (TokenData.ofBody b1 now).create_at = now ∧
      getKey (setKey store b1.uid (TokenData.ofBody b1 now)) b1.uid =
        some (TokenData.ofBody b1 now)) ∧
    (c.refreshAccessToken net now store refreshToken =
        (Except.ok ⟨TokenData.ofBody b2 now⟩,
         setKey store b2.uid (TokenData.ofBody b2 now),
         [(accessTokenURL, c.refreshAccessTokenArgs refreshToken)]) ∧
      (TokenData.ofBody b2 now).create_at = now ∧
      getKey (setKey store b2.uid (TokenData.ofBody b2 now)) b2.uid =
        some (TokenData.ofBody b2 now)) := by
  refine ⟨⟨?_, rfl, getKey_setKey_self store b1.uid (TokenData.ofBody b1 now)⟩,
          ⟨?_, rfl, getKey_setKey_self store b2.uid (TokenData.ofBody b2 now)⟩⟩
  · simp [OAuth.getAccessToken, OAuth.request, hnet1, hb1, OAuth.processToken]
  · simp [OAuth.refreshAccessToken, OAuth.request, hnet2, hb2, OAuth.processToken]

/-- Witness for C4: a concrete mint whose response body names uid u1. -/
theorem token_mint_refresh_persistence_witness :
    (OAuth.mk "cid" "sec" "ru").getAccessToken
        (fun _ args => if args.method = some "POST"
          then NetResult.ok 200 ⟨none, 0, "", "atM", 7200, "rtM", "u1", "s", ""⟩
          else NetResult.ok 200 ⟨none, 0, "", "atR", 7200, "rtR", "u1", "s", ""⟩)
        5 [] "thecode" =
      (Except.ok ⟨TokenData.ofBody ⟨none, 0, "", "atM", 7200, "rtM", "u1", "s", ""⟩ 5⟩,
       setKey [] "u1" (TokenData.ofBody ⟨none, 0, "", "atM", 7200, "rtM", "u1", "s", ""⟩ 5),
       [(accessTokenURL, (OAuth.mk "cid" "sec" "ru").getAccessTokenArgs "thecode")]) := by
  have h := token_mint_refresh_persistence (OAuth.mk "cid" "sec" "ru")
      (fun _ args => if args.method = some "POST"
        then NetResult.ok 200 ⟨none, 0, "", "atM", 7200, "rtM", "u1", "s", ""⟩
        else NetResult.ok 200 ⟨none, 0, "", "atR", 7200, "rtR", "u1", "s", ""⟩)
      5 [] "thecode" "rt" 200 200
      ⟨none, 0, "", "atM", 7200, "rtM", "u1", "s", ""⟩
      ⟨none, 0, "", "atR", 7200, "rtR", "u1", "s", ""⟩
      rfl rfl rfl rfl
  exact h.1.1

/-- C2: with a stored token that fails the validity check, `getUser` calls
the refresh exchange carrying exactly the cached token's refresh_token,
fetches the resource with the access_token of the refreshed token, returns
the resource body without raising, and the only store write is the save
performed inside `refreshAccessToken` (keyed by the refresh response's
uid). -/
theorem getUser_refresh_path (c : OAuth) (net : Net) (tValid tRefresh : Int)
    (store : Store) (o : GetUserOptions) (d : TokenData) (s1 s2 : Int) (b1 b2 : Body)
    (hload : getKey store o.uid = some d)
    (hinvalid : (AccessToken.mk d).isValid tValid = false)
    (hnet1 : net accessTokenURL (c.refreshAccessTokenArgs d.refresh_token) = .ok s1 b1)
    (hb1 : jsTruthyOptStr b1.error = false)
    (hnet2 : net usersShowURL (OAuth.getUserArgs o b1.access_token) = .ok s2 b2)
    (hb2 : jsTruthyOptStr b2.error = false) :
    c.getUserWithOptions net tValid tRefresh store o =
      (Except.ok b2, setKey store b1.uid (TokenData.ofBody b1 tRefresh),
       [(accessTokenURL, c.refreshAccessTokenArgs d.refresh_token),
        (usersShowURL, OAuth.getUserArgs o b1.access_token)]) ∧
    getKey (c.refreshAccessTokenArgs d.refresh_token).data "refresh_token" =
      some d.refresh_token ∧
    getKey (OAuth.getUserArgs o b1.access_token).data "access_token" =
      some b1.access_token := by
  refine ⟨?_, by simp [OAuth.refreshAccessTokenArgs, getKey], by simp [OAuth.getUserArgs, getKey]⟩
  simp [OAuth.getUserWithOptions, hload, hinvalid, OAuth.refreshAccessToken, OAuth.request,
        hnet1, hb1, OAuth.processToken, OAuth.getUserResource, hnet2, hb2, TokenData.ofBody]

/-- Witness for C2: an expired stored token for u1 is transparently
refreshed and the profile body comes back. -/
theorem getUser_refresh_path_witness :
    (OAuth.mk "cid" "sec" "ru").getUserWithOptions
        (fun url _ => if url = accessTokenURL
          then NetResult.ok 200 ⟨none, 0, "", "atR", 7200, "rtR", "u1", "s", ""⟩
          else NetResult.ok 200 ⟨none, 0, "", "", 0, "", "", "", "profile"⟩)
        2000 7 [("u1", ⟨"atOld", 1, "rtOld", "u1", "s", 0⟩)]
        ⟨"u1", none, none⟩ =
      (Except.ok ⟨none, 0, "", "", 0, "", "", "", "profile"⟩,
       setKey [("u1", ⟨"atOld", 1, "rtOld", "u1", "s", 0⟩)] "u1"
         (TokenData.ofBody ⟨none, 0, "", "atR", 7200, "rtR", "u1", "s", ""⟩ 7),
       [(accessTokenURL, (OAuth.mk "cid" "sec" "ru").refreshAccessTokenArgs "rtOld"),
        (usersShowURL, OAuth.getUserArgs ⟨"u1", none, none⟩ "atR")]) := by
  have h := getUser_refresh_path (OAuth.mk "cid" "sec" "ru")
      (fun url _ => if url = accessTokenURL
        then NetResult.ok 200 ⟨none, 0, "", "atR", 7200, "rtR", "u1", "s", ""⟩
        else NetResult.ok 200 ⟨none, 0, "", "", 0, "", "", "", "profile"⟩)
      2000 7 [("u1", ⟨"atOld", 1, "rtOld", "u1", "s", 0⟩)] ⟨"u1", none, none⟩
      ⟨"atOld", 1, "rtOld", "u1", "s", 0⟩ 200 200
      ⟨none, 0, "", "atR", 7200, "rtR", "u1", "s", ""⟩
      ⟨none, 0, "", "", 0, "", "", "", "profile"⟩
      (by decide) (by decide) rfl rfl rfl rfl
  exact h.1

/-- C10: the behaviour of `getUser` on a structured options object is
independent of the options' access_token field: same uid and lang give the
same result, the same final store and the same requests, whatever the
access_token entry, because the token used for the resource fetch is
resolved from the store (or the refresh it triggers), never from the
options. -/
theorem getUser_independent_of_options_access_token (c : OAuth) (net : Net)
    (tValid tRefresh : Int) (store : Store) (o1 o2 : GetUserOptions)
    (huid : o1.uid = o2.uid) (hlang : o1.lang = o2.lang) :
    c.getUserWithOptions net tValid tRefresh store o1 =
      c.getUserWithOptions net tValid tRefresh store o2 := by
  cases o1
  cases o2
  cases huid
  cases hlang
  rfl

/-- Witness for C10: two option objects differing only in access_token. -/
theorem getUser_independent_of_options_access_token_witness :
    (OAuth.mk "cid" "sec" "ru").getUserWithOptions
        (fun _ _ => NetResult.exn "Error" "down") 0 0 [] ⟨"u1", none, some "en"⟩ =
      (OAuth.mk "cid" "sec" "ru").getUserWithOptions
        (fun _ _ => NetResult.exn "Error" "down") 0 0 [] ⟨"u1", some "other", some "en"⟩ :=
  getUser_independent_of_options_access_token (OAuth.mk "cid" "sec" "ru")
    (fun _ _ => NetResult.exn "Error" "down") 0 0 [] ⟨"u1", none, some "en"⟩
    ⟨"u1", some "other", some "en"⟩ rfl rfl

/-- C5 counterexample: at a concrete client, the single request issued by
`refreshAccessToken` carries no `method` key at all, so it is not a POST
(while the mint request is); the transport's default method applies. -/
theorem refreshAccessToken_not_post_counterexample :
    ((OAuth.mk "cid" "sec" "ru").refreshAccessToken
        (fun _ _ => NetResult.exn "Error" "down") 0 [] "rt").2.2 =
      [(accessTokenURL, (OAuth.mk "cid" "sec" "ru").refreshAccessTokenArgs "rt")] ∧
    ((OAuth.mk "cid" "sec" "ru").refreshAccessTokenArgs "rt").method = none ∧
    ((OAuth.mk "cid" "sec" "ru").refreshAccessTokenArgs "rt").method ≠ some "POST" ∧
    ((OAuth.mk "cid" "sec" "ru").getAccessTokenArgs "thecode").method = some "POST" := by
  exact ⟨rfl, rfl, by decide, rfl⟩

/-- C5 amended: `refreshAccessToken` sends its request to the same token
endpoint as `getAccessToken` and with the same dataType, but with no
`method` key (the transport default, not an explicit POST); its form data is
`getAccessToken`'s with `code` omitted, `grant_type` set to refresh_token
and `refresh_token` included; and persistence (stamp, save by uid, return
the saved token) and error semantics (in-band `WeiboAPIError`, re-tagged
transport errors) match `getAccessToken`'s. -/
theorem refreshAccessToken_request_shape (c : OAuth) (net : Net) (now : Int)
    (store : Store) (code refreshToken : String) :
    (c.refreshAccessTokenArgs refreshToken).method = none ∧
    (c.getAccessTokenArgs code).method = some "POST" ∧
    (c.refreshAccessTokenArgs refreshToken).dataType = (c.getAccessTokenArgs code).dataType ∧
    getKey (c.refreshAccessTokenArgs refreshToken).data "code" = none ∧
    getKey (c.refreshAccessTokenArgs refreshToken).data "grant_type" = some "refresh_token" ∧
    getKey (c.refreshAccessTokenArgs refreshToken).data "refresh_token" = some refreshToken ∧
    (∀ k, k ≠ "code" → k ≠ "grant_type" → k ≠ "refresh_token" →
      getKey (c.refreshAccessTokenArgs refreshToken).data k =
        getKey (c.getAccessTokenArgs code).data k) ∧
    (∀ s b, net accessTokenURL (c.refreshAccessTokenArgs refreshToken) = .ok s b →
      (jsTruthyOptStr b.error = false →
        c.refreshAccessToken net now store refreshToken =
          (Except.ok ⟨TokenData.ofBody b now⟩,
           setKey store b.uid (TokenData.ofBody b now),
           [(accessTokenURL, c.refreshAccessTokenArgs refreshToken)])) ∧
      (jsTruthyOptStr b.error = true →
        c.refreshAccessToken net now store refreshToken =
          (Except.error (.weiboAPIError b.error_code b.error_description), store,
           [(accessTokenURL, c.refreshAccessTokenArgs refreshToken)]))) ∧
    (∀ name msg, net accessTokenURL (c.refreshAccessTokenArgs refreshToken) = .exn name msg →
      c.refreshAccessToken net now store refreshToken =
        (Except.error (.transportError ("WeiboAPI" ++ name) msg), store,
         [(accessTokenURL, c.refreshAccessTokenArgs refreshToken)])) := by
  refine ⟨rfl, rfl, rfl, by simp [OAuth.refreshAccessTokenArgs, getKey],
    by simp [OAuth.refreshAccessTokenArgs, getKey],
    by simp [OAuth.refreshAccessTokenArgs, getKey], ?_, ?_, ?_⟩
  · intro k h1 h2 h3
    simp only [OAuth.refreshAccessTokenArgs, OAuth.getAccessTokenArgs, getKey]
    split_ifs <;> simp_all
  · intro s b hnet
    constructor <;> intro hb <;>
      simp [OAuth.refreshAccessToken, OAuth.request, hnet, hb, OAuth.processToken]
  · intro name msg hnet
    simp [OAuth.refreshAccessToken, OAuth.request, hnet]

/-- Witness for the amended C5: a concrete refresh succeeds with the
documented persistence. -/
theorem refreshAccessToken_request_shape_witness :
    (OAuth.mk "cid" "sec" "ru").refreshAccessToken
        (fun _ _ => NetResult.ok 200 ⟨none, 0, "", "atR", 7200, "rtR", "u1", "s", ""⟩)
        7 [] "rtOld" =
      (Except.ok ⟨TokenData.ofBody ⟨none, 0, "", "atR", 7200, "rtR", "u1", "s", ""⟩ 7⟩,
       setKey [] "u1" (TokenData.ofBody ⟨none, 0, "", "atR", 7200, "rtR", "u1", "s", ""⟩ 7),
       [(accessTokenURL, (OAuth.mk "cid" "sec" "ru").refreshAccessTokenArgs "rtOld")]) := by
  have h := refreshAccessToken_request_shape (OAuth.mk "cid" "sec" "ru")
      (fun _ _ => NetResult.ok 200 ⟨none, 0, "", "atR", 7200, "rtR", "u1", "s", ""⟩)
      7 [] "thecode" "rtOld"
  exact ((h.2.2.2.2.2.2.2.1 200 ⟨none, 0, "", "atR", 7200, "rtR", "u1", "s", ""⟩ rfl).1 rfl).trans rfl
